import Mathlib

/-!
# Verification of the contractor-matching scoring pipeline

A shallow embedding of the scoring backend (`backend/main.py`): the candidate
dataset, the five attribute normalizers, the base-score aggregator, the
locale filter / ranking / shortlist step, and the refinement gate that
validates and clamps the external refiner's output (including its fallback
path).  Python floats are modelled as real numbers, Python ints as `Int`,
and Python `round(x, 1)` as round-half-to-even at one decimal place.
Theorems below settle the spec's claims about this code.
-/

namespace ContractorMatcher

noncomputable section

/-- Python's `str.lower()` (character-wise ASCII lowercasing; all strings in
this code base are ASCII).  Defined by a structural `List.map` so that it
reduces on literals. -/
def str_lower (s : String) : String := ⟨s.data.map Char.toLower⟩

/-! ### Data model -/

/-- One entry of the `CONTRACTORS` dataset. -/
structure Contractor where
  id : String
  name : String
  vertical : String
  years_in_business : ℤ
  rating : ℝ
  review_count : ℤ
  service_area : String
  pricing_band : String
  speed_weeks : ℤ
  licenses : List String
  flags : List String

/-- The weight dictionary of a `ScoreRequest`; only the five keys read by the
code are modelled, each `none` when the key is absent. -/
structure Weights where
  experience : Option ℝ
  reviews : Option ℝ
  rating : Option ℝ
  price : Option ℝ
  speed : Option ℝ

/-- Python `dict.get(key, default)` for a weight entry. -/
def wget (o : Option ℝ) (default : ℝ) : ℝ := o.getD default

/-- The request body of the `/score` endpoint. -/
structure ScoreRequest where
  city : String
  project_type : String
  notes : String
  weights : Weights

/-! ### The fixed candidate dataset (`CONTRACTORS` in the source) -/

def c1 : Contractor :=
  { id := "c1", name := "NorthPeak Roofing", vertical := "roofing"
    years_in_business := 18, rating := 4.7, review_count := 312
    service_area := "Salt Lake City", pricing_band := "$$$", speed_weeks := 2
    licenses := ["UT-ROOF-44121"], flags := [] }

def c2 : Contractor :=
  { id := "c2", name := "Beehive Home Repair", vertical := "handyman"
    years_in_business := 6, rating := 4.4, review_count := 128
    service_area := "Salt Lake City", pricing_band := "$$", speed_weeks := 3
    licenses := ["UT-GEN-99812"], flags := ["limited_roofing_experience"] }

def c3 : Contractor :=
  { id := "c3", name := "Wasatch Elite Exteriors", vertical := "siding"
    years_in_business := 12, rating := 4.8, review_count := 205
    service_area := "Salt Lake City", pricing_band := "$$$", speed_weeks := 4
    licenses := ["UT-EXT-77421"], flags := ["premium_pricing"] }

def c4 : Contractor :=
  { id := "c4", name := "Granite Peak Roofing Co.", vertical := "roofing"
    years_in_business := 9, rating := 4.5, review_count := 164
    service_area := "Salt Lake City", pricing_band := "$$", speed_weeks := 3
    licenses := ["UT-ROOF-55210"], flags := [] }

def c5 : Contractor :=
  { id := "c5", name := "QuickFix Pros", vertical := "roofing"
    years_in_business := 3, rating := 4.2, review_count := 59
    service_area := "Salt Lake City", pricing_band := "$", speed_weeks := 2
    licenses := ["UT-ROOF-12003"], flags := ["newer_company"] }

def CONTRACTORS : List Contractor := [c1, c2, c3, c4, c5]

/-! ### Normalization and scoring functions -/

/-- `normalize_experience`: cap at 20 years, 0-100 scale. -/
def normalize_experience (years : ℤ) : ℝ :=
  min ((years : ℝ) / 20) 1 * 100

/-- `normalize_reviews`: log scale against 500 reviews, 0-100 scale. -/
def normalize_reviews (review_count : ℤ) : ℝ :=
  if review_count ≤ 1 then 0
  else min (Real.log (review_count : ℝ) / Real.log 500) 1 * 100

/-- `normalize_rating`: linear remap of 1-5 onto 0-100. -/
def normalize_rating (rating : ℝ) : ℝ :=
  (rating - 1) / 4 * 100

/-- `normalize_price`: categorical lookup, inverted when the price weight is
below 0.2.  The dictionary lookups with default 50 are modelled as
equality chains over the three listed bands. -/
def normalize_price (pricing_band : String) (price_weight : ℝ) : ℝ :=
  let base_score : ℝ :=
    if pricing_band = "$" then 100
    else if pricing_band = "$$" then 70
    else if pricing_band = "$$$" then 40
    else 50
  if price_weight < 0.2 then
    if pricing_band = "$" then 60
    else if pricing_band = "$$" then 80
    else if pricing_band = "$$$" then 100
    else 50
  else base_score

/-- `normalize_speed`: `max(0, (6 - weeks) / (6 - 1)) * 100`. -/
def normalize_speed (speed_weeks : ℤ) : ℝ :=
  max 0 ((6 - (speed_weeks : ℝ)) / (6 - 1)) * 100

/-- The fixed negative-flag set of `calculate_base_score`. -/
def negative_flags : List String :=
  ["limited_roofing_experience", "newer_company", "premium_pricing"]

/-- `calculate_base_score`: weighted sum of the five normalized values,
then the category multiplier, then the per-flag penalties, then the cap. -/
def calculate_base_score (contractor : Contractor) (request : ScoreRequest) : ℝ :=
  let exp_score := normalize_experience contractor.years_in_business
  let review_score := normalize_reviews contractor.review_count
  let rating_score := normalize_rating contractor.rating
  let price_score := normalize_price contractor.pricing_band (wget request.weights.price 0.1)
  let speed_score := normalize_speed contractor.speed_weeks
  let weighted_score :=
    exp_score * wget request.weights.experience 0 +
    review_score * wget request.weights.reviews 0 +
    rating_score * wget request.weights.rating 0 +
    price_score * wget request.weights.price 0 +
    speed_score * wget request.weights.speed 0
  let weighted_score :=
    if str_lower contractor.vertical = str_lower request.project_type then
      weighted_score * 1.2
    else if contractor.vertical = "handyman" ∧
        str_lower request.project_type ∈ ["roofing", "siding"] then
      weighted_score * 0.8
    else weighted_score
  let weighted_score :=
    contractor.flags.foldl
      (fun s flag => if flag ∈ negative_flags then s * 0.9 else s) weighted_score
  min weighted_score 100

/-- The weighted sum of step 2 of the aggregator, on its own (each missing
weight key contributes 0; only the price normalizer's internal branching
sees the 0.1 default). -/
def weighted_sum (contractor : Contractor) (request : ScoreRequest) : ℝ :=
  normalize_experience contractor.years_in_business * wget request.weights.experience 0 +
  normalize_reviews contractor.review_count * wget request.weights.reviews 0 +
  normalize_rating contractor.rating * wget request.weights.rating 0 +
  normalize_price contractor.pricing_band (wget request.weights.price 0.1) *
    wget request.weights.price 0 +
  normalize_speed contractor.speed_weeks * wget request.weights.speed 0

/-- The category bonus/penalty multiplier of step 3 of the aggregator. -/
def category_mult (contractor : Contractor) (request : ScoreRequest) : ℝ :=
  if str_lower contractor.vertical = str_lower request.project_type then 1.2
  else if contractor.vertical = "handyman" ∧
      str_lower request.project_type ∈ ["roofing", "siding"] then 0.8
  else 1

/-- The number of negative flags carried by the candidate. -/
def neg_flag_count (contractor : Contractor) : ℕ :=
  contractor.flags.countP (fun f => decide (f ∈ negative_flags))

/-! ### Python `round(x, 1)` (round half to even, idealized over ℝ) -/

/-- Round to the nearest integer, ties to the even integer. -/
def pyRound0 (x : ℝ) : ℤ :=
  if Int.fract x < 1 / 2 then ⌊x⌋
  else if 1 / 2 < Int.fract x then ⌊x⌋ + 1
  else if Even ⌊x⌋ then ⌊x⌋ else ⌊x⌋ + 1

/-- `round(x, 1)`: round to the nearest tenth, ties to even last digit. -/
def pyRound1 (x : ℝ) : ℝ :=
  (pyRound0 (x * 10) : ℝ) / 10

/-! ### Candidate ranker (step 1 of the `/score` endpoint) -/

/-- One entry of the `base_scores` list: the candidate's attributes together
with its rounded base score. -/
structure BaseRec where
  id : String
  name : String
  base_score : ℝ
  vertical : String
  years_in_business : ℤ
  rating : ℝ
  review_count : ℤ
  service_area : String
  pricing_band : String
  speed_weeks : ℤ
  licenses : List String
  flags : List String

/-- The locale filter: keep candidates whose service area equals the
requested city, case-insensitively. -/
def available_contractors (pool : List Contractor) (request : ScoreRequest) :
    List Contractor :=
  pool.filter (fun c => str_lower c.service_area == str_lower request.city)

/-- Build one `base_scores` entry for a surviving candidate. -/
def mkBaseRec (request : ScoreRequest) (c : Contractor) : BaseRec :=
  { id := c.id, name := c.name
    base_score := pyRound1 (calculate_base_score c request)
    vertical := c.vertical, years_in_business := c.years_in_business
    rating := c.rating, review_count := c.review_count
    service_area := c.service_area, pricing_band := c.pricing_band
    speed_weeks := c.speed_weeks, licenses := c.licenses, flags := c.flags }

/-- The unsorted `base_scores` list. -/
def base_scores (pool : List Contractor) (request : ScoreRequest) :
    List BaseRec :=
  (available_contractors pool request).map (mkBaseRec request)

/-- The sort key `(base_score, rating, review_count)`. -/
def sortKey (r : BaseRec) : ℝ × ℝ × ℤ :=
  (r.base_score, r.rating, r.review_count)

/-- Lexicographic order on sort keys (Python tuple comparison). -/
def tripleLe (a b : ℝ × ℝ × ℤ) : Prop :=
  a.1 < b.1 ∨ (a.1 = b.1 ∧ (a.2.1 < b.2.1 ∨ (a.2.1 = b.2.1 ∧ a.2.2 ≤ b.2.2)))

instance tripleLeDecidable (a b : ℝ × ℝ × ℤ) : Decidable (tripleLe a b) := by
  unfold tripleLe
  exact inferInstance

/-- The comparator realising `sort(key=..., reverse=True)`: `a` may be
placed before `b` exactly when `a`'s key is lexicographically ≥ `b`'s, so
equal keys keep their input order (stability). -/
def keyLE (a b : BaseRec) : Bool :=
  decide (tripleLe (sortKey b) (sortKey a))

/-- `base_scores.sort(key=..., reverse=True)`: a stable sort, descending on
the three-key tuple. -/
def sorted_base_scores (pool : List Contractor) (request : ScoreRequest) :
    List BaseRec :=
  (base_scores pool request).mergeSort keyLE

/-- `top_candidates = base_scores[:5]` after sorting: the shortlist. -/
def top_candidates (pool : List Contractor) (request : ScoreRequest) :
    List BaseRec :=
  (sorted_base_scores pool request).take 5

/-! ### Refinement gate (steps 3-4 of the `/score` endpoint) -/

/-- The attribute fields the refiner echoes back in each entry; the gate
never reads any of them (that is proved below). -/
structure RefEcho where
  name : Option String
  vertical : Option String
  years_in_business : Option ℤ
  rating : Option ℝ
  review_count : Option ℤ
  service_area : Option String
  pricing_band : Option String
  speed_weeks : Option ℤ
  licenses : Option (List String)
  flags : Option (List String)
  base_score : Option ℝ

/-- One entry of the refiner's parsed `top_contractors` list.  `none`
models an absent key (the code reads each with a `.get` default). -/
structure RefEntry where
  id : Option String
  score : Option ℝ
  reasoning : Option String
  echo : RefEcho

/-- The response record (`ScoredContractor` Pydantic model). -/
structure ScoredContractor where
  id : String
  name : String
  vertical : String
  years_in_business : ℤ
  rating : ℝ
  review_count : ℤ
  service_area : String
  pricing_band : String
  speed_weeks : ℤ
  licenses : List String
  flags : List String
  score : ℝ
  reasoning : Option String

/-- Lookup in a dict built by `{c["id"]: c for c in top_candidates}`:
later entries overwrite earlier ones for a duplicated key. -/
def lookupById (shortlist : List BaseRec) (i : String) : Option BaseRec :=
  shortlist.foldl (fun acc c => if c.id = i then some c else acc) none

/-- Processing of one refiner entry: resolve the identifier against the
shortlist (dropping unknown identifiers), clamp the suggested score into
±5 of the shortlist's own base score, and reassemble the record from the
shortlist's stored attributes. -/
def processEntry (shortlist : List BaseRec) (e : RefEntry) :
    Option ScoredContractor :=
  let contractor_id := e.id.getD ""
  let suggested_score := e.score.getD 0
  let base_score := ((lookupById shortlist contractor_id).map
    (fun c => c.base_score)).getD 0
  match lookupById shortlist contractor_id with
  | none => none
  | some full_contractor =>
    let min_allowed := base_score - 5
    let max_allowed := base_score + 5
    let final_score := max min_allowed (min suggested_score max_allowed)
    some
      { id := contractor_id, name := full_contractor.name
        vertical := full_contractor.vertical
        years_in_business := full_contractor.years_in_business
        rating := full_contractor.rating
        review_count := full_contractor.review_count
        service_area := full_contractor.service_area
        pricing_band := full_contractor.pricing_band
        speed_weeks := full_contractor.speed_weeks
        licenses := full_contractor.licenses
        flags := full_contractor.flags
        score := pyRound1 final_score
        reasoning := some (e.reasoning.getD "") }

/-- The refined response body: the processed entries, in the order the
refiner returned them, truncated to at most 3 (`top_contractors[:3]`). -/
def gate_contractors (shortlist : List BaseRec) (entries : List RefEntry) :
    List ScoredContractor :=
  (entries.filterMap (processEntry shortlist)).take 3

/-- The fallback response body (the `json.JSONDecodeError` handler):
`top_candidates[:3]`, each with its base score as the final score and the
fixed rationale. -/
def fallback_contractors (shortlist : List BaseRec) : List ScoredContractor :=
  (shortlist.take 3).map (fun c =>
    { id := c.id, name := c.name, vertical := c.vertical
      years_in_business := c.years_in_business, rating := c.rating
      review_count := c.review_count, service_area := c.service_area
      pricing_band := c.pricing_band, speed_weeks := c.speed_weeks
      licenses := c.licenses, flags := c.flags
      score := c.base_score
      reasoning := some "Base score (GPT adjustment failed)" })

/-! ### The `/score` endpoint -/

/-- What came back from the refiner call, as seen by the parsing step:
the raw text either fails `json.loads` (`unparseable`), or parses to data
of the wrong shape so that the processing raises an attribute/value error
(`badShape`, carrying the exception message), or parses to the expected
shape (`parsed`). -/
inductive RefinerRaw where
  | unparseable : RefinerRaw
  | badShape : String → RefinerRaw
  | parsed : List RefEntry → RefinerRaw

/-- Outcome of the external refiner call itself: the call raises (refiner
unreachable, timeout, API error - carrying the exception message), or it
returns response text. -/
inductive RefinerOutcome where
  | fails : String → RefinerOutcome
  | returns : RefinerRaw → RefinerOutcome

/-- The `/score` endpoint, parameterized by the refiner outcome.  An
exception from the call itself, or from processing wrongly-shaped parsed
data, reaches the outer generic handler, which re-raises as an
HTTP 500 with detail `"Failed to score contractors: ..."` (modelled as
`Except.error`); only a `json.JSONDecodeError` is caught by the inner
handler, which builds the fallback response. -/
def score_contractors_with_openai (pool : List Contractor)
    (request : ScoreRequest) (outcome : RefinerOutcome) :
    Except String (List ScoredContractor) :=
  let shortlist := top_candidates pool request
  match outcome with
  | .fails msg => .error ("Failed to score contractors: " ++ msg)
  | .returns .unparseable => .ok (fallback_contractors shortlist)
  | .returns (.badShape msg) => .error ("Failed to score contractors: " ++ msg)
  | .returns (.parsed entries) => .ok (gate_contractors shortlist entries)

end

/-! ### Helper lemmas: rounding -/

lemma pyRound0_intCast (k : ℤ) : pyRound0 (k : ℝ) = k := by
  unfold pyRound0
  rw [Int.fract_intCast, if_pos (by norm_num : (0 : ℝ) < 1 / 2)]
  exact Int.floor_intCast k

lemma pyRound0_cases (x : ℝ) : pyRound0 x = ⌊x⌋ ∨ pyRound0 x = ⌊x⌋ + 1 := by
  unfold pyRound0
  split
  · exact .inl rfl
  split
  · exact .inr rfl
  split
  · exact .inl rfl
  · exact .inr rfl

lemma le_pyRound0 {a : ℤ} {y : ℝ} (h : (a : ℝ) ≤ y) : a ≤ pyRound0 y := by
  have hf : a ≤ ⌊y⌋ := Int.le_floor.mpr h
  rcases pyRound0_cases y with h0 | h0 <;> omega

lemma pyRound0_le {b : ℤ} {y : ℝ} (h : y ≤ (b : ℝ)) : pyRound0 y ≤ b := by
  have hf : ⌊y⌋ ≤ b := by
    have := Int.floor_le_floor h
    simpa using this
  rcases pyRound0_cases y with h0 | h0
  · omega
  by_cases hb : ⌊y⌋ + 1 ≤ b
  · omega
  · have hyb : (b : ℝ) ≤ (⌊y⌋ : ℝ) := by
      have hb' : b ≤ ⌊y⌋ := by omega
      exact_mod_cast hb'
    have hy : y = (⌊y⌋ : ℝ) := le_antisymm (le_trans h hyb) (Int.floor_le y)
    have hfr : Int.fract y = 0 := by
      rw [hy, Int.fract_intCast]
    have hcontr : pyRound0 y = ⌊y⌋ := by
      unfold pyRound0
      rw [hfr, if_pos (by norm_num : (0 : ℝ) < 1 / 2)]
    omega

lemma pyRound1_tenth (k : ℤ) : pyRound1 ((k : ℝ) / 10) = (k : ℝ) / 10 := by
  unfold pyRound1
  rw [div_mul_cancel₀ _ (by norm_num : (10 : ℝ) ≠ 0), pyRound0_intCast]

lemma le_pyRound1 {a : ℤ} {x : ℝ} (h : (a : ℝ) / 10 ≤ x) : (a : ℝ) / 10 ≤ pyRound1 x := by
  unfold pyRound1
  have h10 : (a : ℝ) ≤ x * 10 := by linarith
  have := le_pyRound0 h10
  have : (a : ℝ) ≤ (pyRound0 (x * 10) : ℝ) := by exact_mod_cast this
  linarith

lemma pyRound1_le {b : ℤ} {x : ℝ} (h : x ≤ (b : ℝ) / 10) : pyRound1 x ≤ (b : ℝ) / 10 := by
  unfold pyRound1
  have h10 : x * 10 ≤ (b : ℝ) := by linarith
  have := pyRound0_le h10
  have : (pyRound0 (x * 10) : ℝ) ≤ (b : ℝ) := by exact_mod_cast this
  linarith

/-- Evaluation rule: when `x*10` lies in `[k, k + 1/2)` the rounded value
is `k/10`. -/
lemma pyRound1_eval_low {x : ℝ} {k : ℤ} (h1 : (k : ℝ) ≤ x * 10)
    (h2 : x * 10 < (k : ℝ) + 1 / 2) : pyRound1 x = (k : ℝ) / 10 := by
  have hfl : ⌊x * 10⌋ = k := by
    rw [Int.floor_eq_iff]
    constructor
    · exact h1
    · linarith
  have hfr : Int.fract (x * 10) = x * 10 - (k : ℝ) := by
    rw [Int.fract, hfl]
  unfold pyRound1 pyRound0
  rw [hfr, if_pos (by linarith : x * 10 - (k : ℝ) < 1 / 2), hfl]

/-! ### Helper lemmas: logarithm bounds -/

lemma log500_pos : (0 : ℝ) < Real.log 500 :=
  Real.log_pos (by norm_num)

lemma logFrac_nonneg {x : ℝ} (h : 1 ≤ x) : 0 ≤ Real.log x / Real.log 500 :=
  div_nonneg (Real.log_nonneg h) log500_pos.le

lemma logFrac_le_one {x : ℝ} (h0 : 0 < x) (h : x ≤ 500) :
    Real.log x / Real.log 500 ≤ 1 := by
  rw [div_le_one log500_pos]
  exact Real.log_le_log h0 h

lemma logFrac_lt {x : ℝ} {p q : ℕ} (hx : 0 < x) (hq : 0 < q)
    (h : x ^ q < 500 ^ p) : Real.log x / Real.log 500 < (p : ℝ) / (q : ℝ) := by
  have hlog : Real.log (x ^ q) < Real.log ((500 : ℝ) ^ p) :=
    Real.log_lt_log (by positivity) h
  rw [Real.log_pow, Real.log_pow] at hlog
  rw [div_lt_div_iff₀ log500_pos (by exact_mod_cast hq : (0 : ℝ) < (q : ℝ))]
  have c1 : (q : ℝ) * Real.log x = Real.log x * (q : ℝ) := mul_comm _ _
  have c2 : (p : ℝ) * Real.log 500 = Real.log 500 * (p : ℝ) := mul_comm _ _
  linarith

lemma logFrac_gt {x : ℝ} {p q : ℕ} (hq : 0 < q)
    (h : (500 : ℝ) ^ p < x ^ q) : (p : ℝ) / (q : ℝ) < Real.log x / Real.log 500 := by
  have hlog : Real.log ((500 : ℝ) ^ p) < Real.log (x ^ q) :=
    Real.log_lt_log (by positivity) h
  rw [Real.log_pow, Real.log_pow] at hlog
  rw [div_lt_div_iff₀ (by exact_mod_cast hq : (0 : ℝ) < (q : ℝ)) log500_pos]
  have c1 : (q : ℝ) * Real.log x = Real.log x * (q : ℝ) := mul_comm _ _
  have c2 : (p : ℝ) * Real.log 500 = Real.log 500 * (p : ℝ) := mul_comm _ _
  linarith

/-! ### Helper lemmas: flag-penalty fold and id lookup -/

lemma flags_foldl_eq (flags : List String) (init : ℝ) :
    flags.foldl (fun s flag => if flag ∈ negative_flags then s * 0.9 else s) init
      = init * 0.9 ^ (flags.countP (fun f => decide (f ∈ negative_flags))) := by
  induction flags generalizing init with
  | nil => simp
  | cons f fs ih =>
    simp only [List.foldl_cons]
    by_cases hf : f ∈ negative_flags
    · rw [if_pos hf, ih, List.countP_cons_of_pos _ _ (by simpa using hf), pow_succ]
      ring
    · rw [if_neg hf, ih, List.countP_cons_of_neg _ _ (by simpa using hf)]

lemma lookup_foldl_aux (s : List BaseRec) (i : String) (acc : Option BaseRec)
    (c : BaseRec)
    (h : s.foldl (fun acc c => if c.id = i then some c else acc) acc = some c) :
    acc = some c ∨ (c ∈ s ∧ c.id = i) := by
  induction s generalizing acc with
  | nil => exact .inl h
  | cons d ds ih =>
    rcases ih _ h with h' | h'
    · change (if d.id = i then some d else acc) = some c at h'
      by_cases hd : d.id = i
      · rw [if_pos hd] at h'
        injection h' with h''
        subst h''
        exact .inr ⟨List.mem_cons_self d ds, hd⟩
      · rw [if_neg hd] at h'
        exact .inl h'
    · exact .inr ⟨List.mem_cons_of_mem _ h'.1, h'.2⟩

lemma lookupById_mem {s : List BaseRec} {i : String} {c : BaseRec}
    (h : lookupById s i = some c) : c ∈ s ∧ c.id = i := by
  rcases lookup_foldl_aux s i none c h with h' | h'
  · cases h'
  · exact h'

/-! ### Helper lemmas: the sort comparator -/

lemma tripleLe_refl (a : ℝ × ℝ × ℤ) : tripleLe a a :=
  .inr ⟨rfl, .inr ⟨rfl, le_refl _⟩⟩

lemma tripleLe_total (a b : ℝ × ℝ × ℤ) : tripleLe a b ∨ tripleLe b a := by
  unfold tripleLe
  rcases lt_trichotomy a.1 b.1 with h | h | h
  · exact .inl (.inl h)
  · rcases lt_trichotomy a.2.1 b.2.1 with h2 | h2 | h2
    · exact .inl (.inr ⟨h, .inl h2⟩)
    · rcases le_total a.2.2 b.2.2 with h3 | h3
      · exact .inl (.inr ⟨h, .inr ⟨h2, h3⟩⟩)
      · exact .inr (.inr ⟨h.symm, .inr ⟨h2.symm, h3⟩⟩)
    · exact .inr (.inr ⟨h.symm, .inl h2⟩)
  · exact .inr (.inl h)

lemma tripleLe_trans {a b c : ℝ × ℝ × ℤ} (h1 : tripleLe a b) (h2 : tripleLe b c) :
    tripleLe a c := by
  unfold tripleLe at h1 h2 ⊢
  obtain h1 | ⟨e1, h1⟩ := h1
  · obtain h2 | ⟨e2, h2⟩ := h2
    · exact .inl (h1.trans h2)
    · exact .inl (lt_of_lt_of_le h1 (le_of_eq e2))
  · obtain h2 | ⟨e2, h2⟩ := h2
    · exact .inl (lt_of_le_of_lt (le_of_eq e1) h2)
    · refine .inr ⟨e1.trans e2, ?_⟩
      obtain h1 | ⟨f1, h1⟩ := h1
      · obtain h2 | ⟨f2, h2⟩ := h2
        · exact .inl (h1.trans h2)
        · exact .inl (lt_of_lt_of_le h1 (le_of_eq f2))
      · obtain h2 | ⟨f2, h2⟩ := h2
        · exact .inl (lt_of_le_of_lt (le_of_eq f1) h2)
        · exact .inr ⟨f1.trans f2, h1.trans h2⟩

lemma keyLE_trans (a b c : BaseRec) : keyLE a b → keyLE b c → keyLE a c := by
  simp only [keyLE, decide_eq_true_eq]
  intro h1 h2
  exact tripleLe_trans h2 h1

lemma keyLE_total (a b : BaseRec) : keyLE a b || keyLE b a := by
  simp only [keyLE, Bool.or_eq_true, decide_eq_true_eq]
  exact tripleLe_total (sortKey b) (sortKey a)

/-! ### Helper lemmas: closed form of the aggregator -/

lemma calculate_base_score_eq (c : Contractor) (req : ScoreRequest) :
    calculate_base_score c req =
      min (weighted_sum c req * category_mult c req * 0.9 ^ neg_flag_count c) 100 := by
  simp only [calculate_base_score, weighted_sum, category_mult, neg_flag_count]
  rw [flags_foldl_eq]
  by_cases h1 : str_lower c.vertical = str_lower req.project_type
  · rw [if_pos h1, if_pos h1]
  · rw [if_neg h1, if_neg h1]
    by_cases h2 : c.vertical = "handyman" ∧ str_lower req.project_type ∈ ["roofing", "siding"]
    · rw [if_pos h2, if_pos h2]
    · rw [if_neg h2, if_neg h2]
      ring_nf

/-! ### Helper lemmas: normalizer evaluations -/

lemma normalize_price_low_s (w : ℝ) (hw : w < 0.2) : normalize_price "$" w = 60 := by
  simp only [normalize_price]
  rw [if_pos hw]
  simp

lemma normalize_price_low_ss (w : ℝ) (hw : w < 0.2) : normalize_price "$$" w = 80 := by
  simp only [normalize_price]
  rw [if_pos hw]
  simp

lemma normalize_price_low_sss (w : ℝ) (hw : w < 0.2) : normalize_price "$$$" w = 100 := by
  simp only [normalize_price]
  rw [if_pos hw]
  simp

lemma normalize_reviews_eval {n : ℤ} (h1 : 2 ≤ n) (h2 : n ≤ 500) :
    normalize_reviews n = Real.log (n : ℝ) / Real.log 500 * 100 := by
  unfold normalize_reviews
  rw [if_neg (by omega), min_eq_left (logFrac_le_one
    (by exact_mod_cast (by omega : (0 : ℤ) < n)) (by exact_mod_cast h2))]

/-! ### Helper lemmas: the spec's end-to-end example request -/

/-- The end-to-end example: locale "Salt Lake City", category "roofing",
weights experience 0.2, reviews 0.2, rating 0.3, price 0.1, speed 0.2. -/
def reqC2 : ScoreRequest :=
  { city := "Salt Lake City", project_type := "roofing", notes := ""
    weights := { experience := some 0.2, reviews := some 0.2
                 rating := some 0.3, price := some 0.1, speed := some 0.2 } }

lemma ws_c1 : weighted_sum c1 reqC2 = 71.75 + 20 * (Real.log 312 / Real.log 500) := by
  have hrev : normalize_reviews ((312 : ℤ)) = Real.log (312 : ℝ) / Real.log 500 * 100 := by
    rw [normalize_reviews_eval (by norm_num) (by norm_num)]
    norm_num
  simp only [weighted_sum, c1, reqC2, wget, Option.getD_some]
  rw [hrev, normalize_price_low_sss 0.1 (by norm_num)]
  simp only [normalize_experience, normalize_rating, normalize_speed]
  norm_num
  ring_nf

lemma ws_c2 : weighted_sum c2 reqC2 = 51.5 + 20 * (Real.log 128 / Real.log 500) := by
  have hrev : normalize_reviews ((128 : ℤ)) = Real.log (128 : ℝ) / Real.log 500 * 100 := by
    rw [normalize_reviews_eval (by norm_num) (by norm_num)]
    norm_num
  simp only [weighted_sum, c2, reqC2, wget, Option.getD_some]
  rw [hrev, normalize_price_low_ss 0.1 (by norm_num)]
  simp only [normalize_experience, normalize_rating, normalize_speed]
  norm_num
  ring_nf

lemma ws_c3 : weighted_sum c3 reqC2 = 58.5 + 20 * (Real.log 205 / Real.log 500) := by
  have hrev : normalize_reviews ((205 : ℤ)) = Real.log (205 : ℝ) / Real.log 500 * 100 := by
    rw [normalize_reviews_eval (by norm_num) (by norm_num)]
    norm_num
  simp only [weighted_sum, c3, reqC2, wget, Option.getD_some]
  rw [hrev, normalize_price_low_sss 0.1 (by norm_num)]
  simp only [normalize_experience, normalize_rating, normalize_speed]
  norm_num
  ring_nf

lemma ws_c4 : weighted_sum c4 reqC2 = 55.25 + 20 * (Real.log 164 / Real.log 500) := by
  have hrev : normalize_reviews ((164 : ℤ)) = Real.log (164 : ℝ) / Real.log 500 * 100 := by
    rw [normalize_reviews_eval (by norm_num) (by norm_num)]
    norm_num
  simp only [weighted_sum, c4, reqC2, wget, Option.getD_some]
  rw [hrev, normalize_price_low_ss 0.1 (by norm_num)]
  simp only [normalize_experience, normalize_rating, normalize_speed]
  norm_num
  ring_nf

lemma ws_c5 : weighted_sum c5 reqC2 = 49 + 20 * (Real.log 59 / Real.log 500) := by
  have hrev : normalize_reviews ((59 : ℤ)) = Real.log (59 : ℝ) / Real.log 500 * 100 := by
    rw [normalize_reviews_eval (by norm_num) (by norm_num)]
    norm_num
  simp only [weighted_sum, c5, reqC2, wget, Option.getD_some]
  rw [hrev, normalize_price_low_s 0.1 (by norm_num)]
  simp only [normalize_experience, normalize_rating, normalize_speed]
  norm_num
  ring_nf

lemma cat_c1 : category_mult c1 reqC2 = 1.2 := by
  simp only [category_mult, c1, reqC2]
  rw [if_pos (by decide)]

lemma cat_c2 : category_mult c2 reqC2 = 0.8 := by
  simp only [category_mult, c2, reqC2]
  rw [if_neg (by decide), if_pos (by decide)]

lemma cat_c3 : category_mult c3 reqC2 = 1 := by
  simp only [category_mult, c3, reqC2]
  rw [if_neg (by decide), if_neg (by decide)]

lemma cat_c4 : category_mult c4 reqC2 = 1.2 := by
  simp only [category_mult, c4, reqC2]
  rw [if_pos (by decide)]

lemma cat_c5 : category_mult c5 reqC2 = 1.2 := by
  simp only [category_mult, c5, reqC2]
  rw [if_pos (by decide)]

lemma flags_c1 : neg_flag_count c1 = 0 := rfl

lemma flags_c2 : neg_flag_count c2 = 1 := rfl

lemma flags_c3 : neg_flag_count c3 = 1 := rfl

lemma flags_c4 : neg_flag_count c4 = 0 := rfl

lemma flags_c5 : neg_flag_count c5 = 1 := rfl

lemma logb_312 : (3 : ℝ) / 5 < Real.log 312 / Real.log 500 :=
  logFrac_gt (by norm_num) (by norm_num)

lemma logb_59 : Real.log 59 / Real.log 500 < (67 : ℝ) / 100 :=
  logFrac_lt (by norm_num) (by norm_num) (by norm_num)

lemma logb_205 : (17 : ℝ) / 20 < Real.log 205 / Real.log 500 :=
  logFrac_gt (by norm_num) (by norm_num)

lemma logb_164 : (1 : ℝ) / 2 < Real.log 164 / Real.log 500 := by
  have h := logFrac_gt (x := 164) (p := 1) (q := 2) (by norm_num) (by norm_num)
  push_cast at h
  linarith

lemma score_c1_val : calculate_base_score c1 reqC2 = 100 := by
  rw [calculate_base_score_eq, ws_c1, cat_c1, flags_c1]
  rw [min_eq_right (by nlinarith [logb_312])]

lemma score_c2_val : calculate_base_score c2 reqC2
    = (51.5 + 20 * (Real.log 128 / Real.log 500)) * 0.8 * 0.9 := by
  rw [calculate_base_score_eq, ws_c2, cat_c2, flags_c2, pow_one]
  have hu : Real.log 128 / Real.log 500 ≤ 1 := logFrac_le_one (by norm_num) (by norm_num)
  rw [min_eq_left (by nlinarith [hu])]

lemma score_c3_val : calculate_base_score c3 reqC2
    = (58.5 + 20 * (Real.log 205 / Real.log 500)) * 0.9 := by
  rw [calculate_base_score_eq, ws_c3, cat_c3, flags_c3, pow_one, mul_one]
  have hu : Real.log 205 / Real.log 500 ≤ 1 := logFrac_le_one (by norm_num) (by norm_num)
  rw [min_eq_left (by nlinarith [hu])]

lemma score_c4_val : calculate_base_score c4 reqC2
    = (55.25 + 20 * (Real.log 164 / Real.log 500)) * 1.2 := by
  rw [calculate_base_score_eq, ws_c4, cat_c4, flags_c4, pow_zero, mul_one]
  have hu : Real.log 164 / Real.log 500 ≤ 1 := logFrac_le_one (by norm_num) (by norm_num)
  rw [min_eq_left (by nlinarith [hu])]

lemma score_c5_val : calculate_base_score c5 reqC2
    = (49 + 20 * (Real.log 59 / Real.log 500)) * 1.2 * 0.9 := by
  rw [calculate_base_score_eq, ws_c5, cat_c5, flags_c5, pow_one]
  have hu : Real.log 59 / Real.log 500 ≤ 1 := logFrac_le_one (by norm_num) (by norm_num)
  rw [min_eq_left (by nlinarith [hu])]

/-! ### Helper lemmas: gate, fallback and ranker -/

lemma fallback_length (s : List BaseRec) :
    (fallback_contractors s).length = min 3 s.length := by
  simp [fallback_contractors]

lemma processEntry_isSome (s : List BaseRec) (e : RefEntry) :
    (processEntry s e).isSome = (lookupById s (e.id.getD "")).isSome := by
  simp only [processEntry]
  cases h : lookupById s (e.id.getD "") <;> simp [h]

lemma processEntry_some {s : List BaseRec} {e : RefEntry} {full : BaseRec}
    (h : lookupById s (e.id.getD "") = some full) :
    processEntry s e = some
      { id := e.id.getD "", name := full.name, vertical := full.vertical
        years_in_business := full.years_in_business, rating := full.rating
        review_count := full.review_count, service_area := full.service_area
        pricing_band := full.pricing_band, speed_weeks := full.speed_weeks
        licenses := full.licenses, flags := full.flags
        score := pyRound1 (max (full.base_score - 5)
          (min (e.score.getD 0) (full.base_score + 5)))
        reasoning := some (e.reasoning.getD "") } := by
  simp only [processEntry, h]
  simp

lemma processEntry_echo (s : List BaseRec) (e : RefEntry) (echo2 : RefEcho) :
    processEntry s { e with echo := echo2 } = processEntry s e := rfl

lemma processEntry_some_elim {s : List BaseRec} {e : RefEntry} {r : ScoredContractor}
    (h : processEntry s e = some r) :
    ∃ full, lookupById s (e.id.getD "") = some full ∧
      r = { id := e.id.getD "", name := full.name, vertical := full.vertical
            years_in_business := full.years_in_business, rating := full.rating
            review_count := full.review_count, service_area := full.service_area
            pricing_band := full.pricing_band, speed_weeks := full.speed_weeks
            licenses := full.licenses, flags := full.flags
            score := pyRound1 (max (full.base_score - 5)
              (min (e.score.getD 0) (full.base_score + 5)))
            reasoning := some (e.reasoning.getD "") } := by
  cases hl : lookupById s (e.id.getD "") with
  | none =>
    have hs := processEntry_isSome s e
    rw [h, hl] at hs
    simp at hs
  | some full =>
    refine ⟨full, rfl, ?_⟩
    rw [processEntry_some hl] at h
    injection h with h2
    exact h2.symm

lemma filterMap_map_id_sublist (s : List BaseRec) (entries : List RefEntry) :
    List.Sublist ((entries.filterMap (processEntry s)).map (fun r => r.id))
      (entries.map (fun e => e.id.getD "")) := by
  induction entries with
  | nil => simp
  | cons e es ih =>
    cases h : processEntry s e with
    | none =>
      rw [List.filterMap_cons_none h, List.map_cons]
      exact ih.cons _
    | some r =>
      rw [List.filterMap_cons_some h, List.map_cons, List.map_cons]
      have hid : r.id = e.id.getD "" := by
        obtain ⟨full, _, hr⟩ := processEntry_some_elim h
        rw [hr]
      rw [hid]
      exact ih.cons₂ _

lemma mem_available_iff (pool : List Contractor) (req : ScoreRequest) (c : Contractor) :
    c ∈ available_contractors pool req ↔
      c ∈ pool ∧ str_lower c.service_area = str_lower req.city := by
  simp [available_contractors, List.mem_filter]

lemma sorted_base_perm (pool : List Contractor) (req : ScoreRequest) :
    (sorted_base_scores pool req).Perm (base_scores pool req) :=
  List.mergeSort_perm (base_scores pool req) keyLE

lemma sorted_base_sorted (pool : List Contractor) (req : ScoreRequest) :
    (sorted_base_scores pool req).Pairwise
      (fun a b => tripleLe (sortKey b) (sortKey a)) := by
  have h := List.sorted_mergeSort keyLE_trans keyLE_total (base_scores pool req)
  exact h.imp (fun hab => by simpa [keyLE, decide_eq_true_eq] using hab)

lemma sorted_base_filter_key (pool : List Contractor) (req : ScoreRequest)
    (k : ℝ × ℝ × ℤ) :
    (sorted_base_scores pool req).filter (fun r => decide (sortKey r = k))
      = (base_scores pool req).filter (fun r => decide (sortKey r = k)) := by
  have hpair : ((base_scores pool req).filter
      (fun r => decide (sortKey r = k))).Pairwise (fun a b => keyLE a b) := by
    apply List.pairwise_of_forall_mem_list
    intro a ha b hb
    rw [List.mem_filter] at ha hb
    have hka : sortKey a = k := by simpa using ha.2
    have hkb : sortKey b = k := by simpa using hb.2
    simp only [keyLE, decide_eq_true_eq, hka, hkb]
    exact tripleLe_refl k
  have hsub : List.Sublist ((base_scores pool req).filter
      (fun r => decide (sortKey r = k))) (sorted_base_scores pool req) :=
    List.sublist_mergeSort keyLE_trans keyLE_total hpair (List.filter_sublist _)
  have hsub2 : List.Sublist ((base_scores pool req).filter
      (fun r => decide (sortKey r = k)))
      ((sorted_base_scores pool req).filter (fun r => decide (sortKey r = k))) := by
    have h2 := hsub.filter (fun r => decide (sortKey r = k))
    rwa [List.filter_filter, (by funext a; rw [Bool.and_self] :
      (fun a => decide (sortKey a = k) && decide (sortKey a = k))
        = fun a => decide (sortKey a = k))] at h2
  have hperm : List.Perm
      ((sorted_base_scores pool req).filter (fun r => decide (sortKey r = k)))
      ((base_scores pool req).filter (fun r => decide (sortKey r = k))) :=
    (List.mergeSort_perm (base_scores pool req) keyLE).filter _
  exact (hsub2.eq_of_length hperm.length_eq.symm).symm

/-! ### Claim theorems -/

/-- Claim C1, counterexample: a failure of the refiner call itself (refiner
unreachable, raised exception, timeout) is NOT recovered by the fallback
path; it propagates to the caller as an HTTP 500 error, refuting the claim
that a refiner failure is never propagated. -/
theorem refiner_call_failure_propagates_error :
    score_contractors_with_openai CONTRACTORS reqC2 (.fails "refiner unreachable")
      = .error "Failed to score contractors: refiner unreachable" := rfl

/-- Claim C1, amended: only a refiner response that fails JSON parsing is
recovered locally via the fallback path (a valid response of
`min 3 (shortlist size)` records); an exception from the refiner call
itself, or parseable data of the wrong shape, is propagated to the caller
as an HTTP 500 error. -/
theorem refiner_failure_handling (pool : List Contractor) (req : ScoreRequest)
    (m : String) (entries : List RefEntry) :
    score_contractors_with_openai pool req (.returns .unparseable)
        = .ok (fallback_contractors (top_candidates pool req)) ∧
    (fallback_contractors (top_candidates pool req)).length
        = min 3 (top_candidates pool req).length ∧
    score_contractors_with_openai pool req (.fails m)
        = .error ("Failed to score contractors: " ++ m) ∧
    score_contractors_with_openai pool req (.returns (.badShape m))
        = .error ("Failed to score contractors: " ++ m) ∧
    score_contractors_with_openai pool req (.returns (.parsed entries))
        = .ok (gate_contractors (top_candidates pool req) entries) :=
  ⟨rfl, fallback_length _, rfl, rfl, rfl⟩

/-- Claim C2, counterexample: on the end-to-end example request, candidate
c5 scores strictly BELOW candidate c3, refuting the claim that each of
c1, c4, c5 scores strictly above each of c2 and c3. -/
theorem example_request_c5_below_c3 :
    calculate_base_score c5 reqC2 < calculate_base_score c3 reqC2 := by
  rw [score_c5_val, score_c3_val]
  have h59n : 0 ≤ Real.log 59 / Real.log 500 := logFrac_nonneg (by norm_num)
  nlinarith [logb_59, logb_205]

/-- Claim C2, amended: on the end-to-end example request, c1 and c4 (with
the 1.2 specialist multiplier) score strictly above both c2 and c3, and
c5 scores strictly above c2 - but c5 scores strictly below c3. -/
theorem example_request_ranking :
    calculate_base_score c2 reqC2 < calculate_base_score c1 reqC2 ∧
    calculate_base_score c3 reqC2 < calculate_base_score c1 reqC2 ∧
    calculate_base_score c2 reqC2 < calculate_base_score c4 reqC2 ∧
    calculate_base_score c3 reqC2 < calculate_base_score c4 reqC2 ∧
    calculate_base_score c2 reqC2 < calculate_base_score c5 reqC2 := by
  have h128u : Real.log 128 / Real.log 500 ≤ 1 := logFrac_le_one (by norm_num) (by norm_num)
  have h128n : 0 ≤ Real.log 128 / Real.log 500 := logFrac_nonneg (by norm_num)
  have h205u : Real.log 205 / Real.log 500 ≤ 1 := logFrac_le_one (by norm_num) (by norm_num)
  have h205n : 0 ≤ Real.log 205 / Real.log 500 := logFrac_nonneg (by norm_num)
  have h59n : 0 ≤ Real.log 59 / Real.log 500 := logFrac_nonneg (by norm_num)
  refine ⟨?_, ?_, ?_, ?_, ?_⟩
  · rw [score_c2_val, score_c1_val]
    nlinarith [h128u]
  · rw [score_c3_val, score_c1_val]
    nlinarith [h205u]
  · rw [score_c2_val, score_c4_val]
    nlinarith [h128u, logb_164]
  · rw [score_c3_val, score_c4_val]
    nlinarith [h205u, logb_164]
  · rw [score_c2_val, score_c5_val]
    nlinarith [h128u, h59n]

/-- Claim C9: the fallback path returns exactly `min 3 (shortlist size)`
records, taken from the top of the shortlist in order, each carrying its
own (already one-decimal-rounded) base score as the final score, its
stored attributes, and the fixed rationale text. -/
theorem fallback_response_content (pool : List Contractor) (req : ScoreRequest)
    (s : List BaseRec) :
    score_contractors_with_openai pool req (.returns .unparseable)
        = .ok (fallback_contractors (top_candidates pool req)) ∧
    (fallback_contractors s).length = min 3 s.length ∧
    (fallback_contractors s).map (fun r => r.id) = (s.take 3).map (fun c => c.id) ∧
    (fallback_contractors s).map (fun r => r.score)
        = (s.take 3).map (fun c => c.base_score) ∧
    (fallback_contractors s).map (fun r => r.reasoning)
        = (s.take 3).map (fun _ => some "Base score (GPT adjustment failed)") ∧
    (fallback_contractors s).map (fun r => (r.name, r.vertical, r.years_in_business,
        r.rating, r.review_count, r.service_area, r.pricing_band, r.speed_weeks,
        r.licenses, r.flags))
      = (s.take 3).map (fun c => (c.name, c.vertical, c.years_in_business, c.rating,
        c.review_count, c.service_area, c.pricing_band, c.speed_weeks,
        c.licenses, c.flags)) := by
  refine ⟨rfl, fallback_length s, ?_, ?_, ?_, ?_⟩ <;>
    simp [fallback_contractors, List.map_map, Function.comp_def]


lemma normalize_experience_nonneg {y : ℤ} (hy : 0 ≤ y) : 0 ≤ normalize_experience y := by
  unfold normalize_experience
  have h0 : (0 : ℝ) ≤ (y : ℝ) / 20 := by
    have : (0 : ℝ) ≤ (y : ℝ) := by exact_mod_cast hy
    linarith
  have := le_min h0 (by norm_num : (0 : ℝ) ≤ 1)
  nlinarith

lemma normalize_experience_le (y : ℤ) : normalize_experience y ≤ 100 := by
  unfold normalize_experience
  nlinarith [min_le_right ((y : ℝ) / 20) 1]

lemma normalize_reviews_nonneg (n : ℤ) : 0 ≤ normalize_reviews n := by
  unfold normalize_reviews
  split
  · exact le_refl 0
  · rename_i h
    have h2 : (1 : ℝ) ≤ (n : ℝ) := by exact_mod_cast (by omega : (1 : ℤ) ≤ n)
    have := le_min (logFrac_nonneg h2) (by norm_num : (0 : ℝ) ≤ 1)
    nlinarith

lemma normalize_reviews_le (n : ℤ) : normalize_reviews n ≤ 100 := by
  unfold normalize_reviews
  split
  · norm_num
  · nlinarith [min_le_right (Real.log (n : ℝ) / Real.log 500) 1]

lemma normalize_rating_nonneg {x : ℝ} (hx : 1 ≤ x) : 0 ≤ normalize_rating x := by
  unfold normalize_rating
  nlinarith

lemma normalize_rating_le {x : ℝ} (hx : x ≤ 5) : normalize_rating x ≤ 100 := by
  unfold normalize_rating
  nlinarith

lemma normalize_price_nonneg (b : String) (w : ℝ) : 0 ≤ normalize_price b w := by
  simp only [normalize_price]
  split_ifs <;> norm_num

lemma normalize_price_le (b : String) (w : ℝ) : normalize_price b w ≤ 100 := by
  simp only [normalize_price]
  split_ifs <;> norm_num

lemma normalize_speed_nonneg (s : ℤ) : 0 ≤ normalize_speed s :=
  mul_nonneg (le_max_left 0 _) (by norm_num)

lemma normalize_speed_le {s : ℤ} (hs : 1 ≤ s) : normalize_speed s ≤ 100 := by
  unfold normalize_speed
  have hc : (1 : ℝ) ≤ (s : ℝ) := by exact_mod_cast hs
  have h1 : (6 - (s : ℝ)) / (6 - 1) ≤ 1 := by norm_num; linarith
  have := max_le (by norm_num : (0 : ℝ) ≤ 1) h1
  nlinarith

lemma category_mult_nonneg (c : Contractor) (req : ScoreRequest) :
    0 ≤ category_mult c req := by
  unfold category_mult
  split_ifs <;> norm_num

lemma weighted_sum_nonneg (c : Contractor) (req : ScoreRequest)
    (hy : 0 ≤ c.years_in_business) (hr : 1 ≤ c.rating)
    (hw1 : 0 ≤ wget req.weights.experience 0) (hw2 : 0 ≤ wget req.weights.reviews 0)
    (hw3 : 0 ≤ wget req.weights.rating 0) (hw4 : 0 ≤ wget req.weights.price 0)
    (hw5 : 0 ≤ wget req.weights.speed 0) : 0 ≤ weighted_sum c req := by
  unfold weighted_sum
  have e1 := normalize_experience_nonneg hy
  have e2 := normalize_reviews_nonneg c.review_count
  have e3 := normalize_rating_nonneg hr
  have e4 := normalize_price_nonneg c.pricing_band (wget req.weights.price 0.1)
  have e5 := normalize_speed_nonneg c.speed_weeks
  have := mul_nonneg e1 hw1
  have := mul_nonneg e2 hw2
  have := mul_nonneg e3 hw3
  have := mul_nonneg e4 hw4
  have := mul_nonneg e5 hw5
  linarith

/-- Claim C4: the price normalizer uses the table (100, 70, 40, 50) when the
price weight is at least 0.2 and the inverted table (60, 80, 100, 50) when
it is below 0.2; a missing price weight defaults to 0.1 inside the
normalizer only (selecting the inverted table, exactly as price weight 0
would), while the aggregation weight for price defaults to 0. -/
theorem price_normalizer_tables :
    (∀ w : ℝ, 0.2 ≤ w →
      normalize_price "$" w = 100 ∧ normalize_price "$$" w = 70 ∧
      normalize_price "$$$" w = 40 ∧
      ∀ b : String, b ≠ "$" → b ≠ "$$" → b ≠ "$$$" → normalize_price b w = 50) ∧
    (∀ w : ℝ, w < 0.2 →
      normalize_price "$" w = 60 ∧ normalize_price "$$" w = 80 ∧
      normalize_price "$$$" w = 100 ∧
      ∀ b : String, b ≠ "$" → b ≠ "$$" → b ≠ "$$$" → normalize_price b w = 50) ∧
    (∀ (c : Contractor) (req : ScoreRequest), req.weights.price = none →
      wget req.weights.price 0.1 = 0.1 ∧ wget req.weights.price 0 = 0 ∧
      calculate_base_score c req = calculate_base_score c
        { req with weights := { req.weights with price := some 0 } }) := by
  refine ⟨?_, ?_, ?_⟩
  · intro w hw
    refine ⟨?_, ?_, ?_, ?_⟩ <;>
      (try (simp only [normalize_price]; rw [if_neg (not_lt.mpr hw)]; simp))
    intro b hb1 hb2 hb3
    simp only [normalize_price]
    rw [if_neg (not_lt.mpr hw), if_neg hb1, if_neg hb2, if_neg hb3]
  · intro w hw
    refine ⟨?_, ?_, ?_, ?_⟩ <;>
      (try (simp only [normalize_price]; rw [if_pos hw]; simp))
    intro b hb1 hb2 hb3
    simp only [normalize_price]
    rw [if_pos hw, if_neg hb1, if_neg hb2, if_neg hb3]
  · intro c req hp
    have hlow : normalize_price c.pricing_band 0.1 = normalize_price c.pricing_band 0 := by
      simp only [normalize_price]
      rw [if_pos (by norm_num : (0.1 : ℝ) < 0.2), if_pos (by norm_num : (0 : ℝ) < 0.2)]
    refine ⟨by rw [hp]; rfl, by rw [hp]; rfl, ?_⟩
    simp only [calculate_base_score, hp, wget, Option.getD_none, Option.getD_some]
    rw [hlow]

/-- Claim C4, witness. -/
theorem price_normalizer_tables_witness :
    ((0.2 : ℝ) ≤ 0.3 ∧ normalize_price "$" 0.3 = 100) ∧
    ((0.1 : ℝ) < 0.2 ∧ normalize_price "unknown" 0.1 = 50) ∧
    (({ city := "Salt Lake City", project_type := "roofing", notes := ""
        weights := { experience := none, reviews := none, rating := none
                     price := none, speed := none } } : ScoreRequest).weights.price
        = none ∧
      wget ({ experience := none, reviews := none, rating := none
              price := none, speed := none } : Weights).price 0.1 = 0.1) :=
  ⟨⟨by norm_num, (price_normalizer_tables.1 0.3 (by norm_num)).1⟩,
   ⟨by norm_num,
    (price_normalizer_tables.2.1 0.1 (by norm_num)).2.2.2 "unknown"
      (by decide) (by decide) (by decide)⟩,
   ⟨rfl,
    (price_normalizer_tables.2.2 c1
      { city := "Salt Lake City", project_type := "roofing", notes := ""
        weights := { experience := none, reviews := none, rating := none
                     price := none, speed := none } } rfl).1⟩⟩

/-- Claim C5: the base score equals the weighted sum of the five normalized
values multiplied by the category multiplier (1.2 on a case-insensitive
vertical match, 0.8 for a handyman on specialized work, else 1) and by
0.9 once per negative flag (compounding), capped at 100 as the last step;
for valid candidate data and non-negative weights the result lies in
[0, 100], and it never exceeds 100. -/
theorem aggregator_structure_and_bounds (c : Contractor) (req : ScoreRequest)
    (hy : 0 ≤ c.years_in_business) (hr : 1 ≤ c.rating)
    (hw1 : 0 ≤ wget req.weights.experience 0) (hw2 : 0 ≤ wget req.weights.reviews 0)
    (hw3 : 0 ≤ wget req.weights.rating 0) (hw4 : 0 ≤ wget req.weights.price 0)
    (hw5 : 0 ≤ wget req.weights.speed 0) :
    calculate_base_score c req
      = min (weighted_sum c req * category_mult c req * 0.9 ^ neg_flag_count c) 100 ∧
    0 ≤ calculate_base_score c req ∧ calculate_base_score c req ≤ 100 := by
  refine ⟨calculate_base_score_eq c req, ?_, ?_⟩
  · rw [calculate_base_score_eq]
    refine le_min ?_ (by norm_num)
    have h1 := weighted_sum_nonneg c req hy hr hw1 hw2 hw3 hw4 hw5
    have h2 := category_mult_nonneg c req
    have h3 : (0 : ℝ) ≤ 0.9 ^ neg_flag_count c := by positivity
    exact mul_nonneg (mul_nonneg h1 h2) h3
  · rw [calculate_base_score_eq]
    exact min_le_right _ _

/-- Claim C5, witness. -/
theorem aggregator_structure_and_bounds_witness :
    ((0 : ℤ) ≤ c1.years_in_business ∧ (1 : ℝ) ≤ c1.rating ∧
      0 ≤ wget reqC2.weights.experience 0 ∧ 0 ≤ wget reqC2.weights.reviews 0 ∧
      0 ≤ wget reqC2.weights.rating 0 ∧ 0 ≤ wget reqC2.weights.price 0 ∧
      0 ≤ wget reqC2.weights.speed 0) ∧
    (calculate_base_score c1 reqC2
        = min (weighted_sum c1 reqC2 * category_mult c1 reqC2 *
            0.9 ^ neg_flag_count c1) 100 ∧
      0 ≤ calculate_base_score c1 reqC2 ∧ calculate_base_score c1 reqC2 ≤ 100) :=
  ⟨⟨by norm_num [c1], by norm_num [c1], by norm_num [reqC2, wget],
    by norm_num [reqC2, wget], by norm_num [reqC2, wget],
    by norm_num [reqC2, wget], by norm_num [reqC2, wget]⟩,
   aggregator_structure_and_bounds c1 reqC2 (by norm_num [c1]) (by norm_num [c1])
     (by norm_num [reqC2, wget]) (by norm_num [reqC2, wget])
     (by norm_num [reqC2, wget]) (by norm_num [reqC2, wget])
     (by norm_num [reqC2, wget])⟩

/-- Claim C8: each normalizer is total and in range on its valid inputs:
experience is `min(years/20, 1) * 100`, in [0, 100] for non-negative years
and exactly 100 from 20 years on; reviews is exactly 0 for counts 0 and 1
and `min(ln count / ln 500, 1) * 100` (in [0, 100]) for counts of at
least 2; rating maps [1, 5] linearly onto [0, 100]; price is a table value
in [0, 100]; speed is `max(0, (6 - weeks)/5) * 100`, in [0, 100] for at
least one week and 0 from 6 weeks on. -/
theorem normalizer_ranges :
    (∀ y : ℤ, 0 ≤ y → 0 ≤ normalize_experience y ∧ normalize_experience y ≤ 100) ∧
    (∀ y : ℤ, 20 ≤ y → normalize_experience y = 100) ∧
    normalize_reviews 0 = 0 ∧ normalize_reviews 1 = 0 ∧
    (∀ n : ℤ, 2 ≤ n → normalize_reviews n
        = min (Real.log (n : ℝ) / Real.log 500) 1 * 100 ∧
      0 ≤ normalize_reviews n ∧ normalize_reviews n ≤ 100) ∧
    (∀ x : ℝ, normalize_rating x = (x - 1) / 4 * 100) ∧
    normalize_rating 1 = 0 ∧ normalize_rating 5 = 100 ∧
    (∀ x : ℝ, 1 ≤ x → x ≤ 5 → 0 ≤ normalize_rating x ∧ normalize_rating x ≤ 100) ∧
    (∀ (b : String) (w : ℝ), 0 ≤ normalize_price b w ∧ normalize_price b w ≤ 100) ∧
    (∀ s : ℤ, normalize_speed s = max 0 ((6 - (s : ℝ)) / 5) * 100) ∧
    (∀ s : ℤ, 1 ≤ s → 0 ≤ normalize_speed s ∧ normalize_speed s ≤ 100) ∧
    (∀ s : ℤ, 6 ≤ s → normalize_speed s = 0) := by
  refine ⟨fun y hy => ⟨normalize_experience_nonneg hy, normalize_experience_le y⟩,
    ?_, by norm_num [normalize_reviews], by norm_num [normalize_reviews],
    fun n hn => ⟨?_, normalize_reviews_nonneg n, normalize_reviews_le n⟩,
    fun x => rfl, by norm_num [normalize_rating], by norm_num [normalize_rating],
    fun x h1 h2 => ⟨normalize_rating_nonneg h1, normalize_rating_le h2⟩,
    fun b w => ⟨normalize_price_nonneg b w, normalize_price_le b w⟩,
    fun s => by norm_num [normalize_speed],
    fun s hs => ⟨normalize_speed_nonneg s, normalize_speed_le hs⟩,
    ?_⟩
  · intro y hy
    unfold normalize_experience
    rw [min_eq_right (by
      have : (20 : ℝ) ≤ (y : ℝ) := by exact_mod_cast hy
      linarith)]
    norm_num
  · unfold normalize_reviews
    rw [if_neg (by omega)]
  · intro s hs
    unfold normalize_speed
    have hc : (6 : ℝ) ≤ (s : ℝ) := by exact_mod_cast hs
    rw [max_eq_left (by norm_num; linarith)]
    norm_num

/-- Claim C8, witness. -/
theorem normalizer_ranges_witness :
    ((0 : ℤ) ≤ 5 ∧ 0 ≤ normalize_experience 5 ∧ normalize_experience 5 ≤ 100) ∧
    ((20 : ℤ) ≤ 25 ∧ normalize_experience 25 = 100) ∧
    ((2 : ℤ) ≤ 10 ∧ normalize_reviews 10
        = min (Real.log ((10 : ℤ) : ℝ) / Real.log 500) 1 * 100) ∧
    ((1 : ℝ) ≤ 4.2 ∧ (4.2 : ℝ) ≤ 5 ∧ 0 ≤ normalize_rating 4.2 ∧
      normalize_rating 4.2 ≤ 100) ∧
    ((1 : ℤ) ≤ 2 ∧ 0 ≤ normalize_speed 2 ∧ normalize_speed 2 ≤ 100) ∧
    ((6 : ℤ) ≤ 7 ∧ normalize_speed 7 = 0) :=
  ⟨⟨by norm_num, (normalizer_ranges.1 5 (by norm_num)).1,
    (normalizer_ranges.1 5 (by norm_num)).2⟩,
   ⟨by norm_num, normalizer_ranges.2.1 25 (by norm_num)⟩,
   ⟨by norm_num, (normalizer_ranges.2.2.2.2.1 10 (by norm_num)).1⟩,
   ⟨by norm_num, by norm_num,
    (normalizer_ranges.2.2.2.2.2.2.2.2.1 4.2 (by norm_num) (by norm_num)).1,
    (normalizer_ranges.2.2.2.2.2.2.2.2.1 4.2 (by norm_num) (by norm_num)).2⟩,
   ⟨by norm_num, (normalizer_ranges.2.2.2.2.2.2.2.2.2.2.2.1 2 (by norm_num)).1,
    (normalizer_ranges.2.2.2.2.2.2.2.2.2.2.2.1 2 (by norm_num)).2⟩,
   ⟨by norm_num, normalizer_ranges.2.2.2.2.2.2.2.2.2.2.2.2 7 (by norm_num)⟩⟩


/-! ### Test fixtures for the gate theorems -/

/-- A refiner echo with every field absent. -/
def echoNone : RefEcho :=
  { name := none, vertical := none, years_in_business := none, rating := none
    review_count := none, service_area := none, pricing_band := none
    speed_weeks := none, licenses := none, flags := none, base_score := none }

def recA : BaseRec :=
  { id := "x1", name := "Alpha Roofing", base_score := 80, vertical := "roofing"
    years_in_business := 10, rating := 4.5, review_count := 100
    service_area := "Salt Lake City", pricing_band := "$$", speed_weeks := 2
    licenses := [], flags := [] }

def eA : RefEntry :=
  { id := some "x1", score := some 83.44, reasoning := some "adjusted", echo := echoNone }

def recB : BaseRec := { recA with id := "x2", base_score := 90 }

def eB : RefEntry :=
  { id := some "x2", score := some 99, reasoning := some "up", echo := echoNone }

def recC : BaseRec := { recA with id := "x3" }

def eC : RefEntry :=
  { id := some "x3", score := none, reasoning := none, echo := echoNone }

/-- Claim C3, counterexample: for shortlist base score 80 and suggested
score 83.44 the clamp leaves 83.44 unchanged, but the response carries
`round(83.44, 1) = 83.4`, so the final score in the response does not
equal `max(B - 5, min(S, B + 5))` exactly. -/
theorem refined_score_rounding_counterexample :
    (gate_contractors [recA] [eA]).map (fun r => r.score) = [(83.4 : ℝ)] ∧
    max (recA.base_score - 5) ((eA.score).getD 0 ⊓ (recA.base_score + 5)) = 83.44 ∧
    (83.4 : ℝ) ≠ 83.44 := by
  have hl : lookupById [recA] (eA.id.getD "") = some recA := rfl
  have hp := processEntry_some hl
  have hclamp : max (recA.base_score - 5) ((eA.score).getD 0 ⊓ (recA.base_score + 5))
      = 83.44 := by
    simp only [eA, recA, Option.getD_some]
    rw [min_eq_left (by norm_num), max_eq_right (by norm_num)]
  have hround : pyRound1 (83.44 : ℝ) = 83.4 := by
    have h := pyRound1_eval_low (x := (83.44 : ℝ)) (k := 834) (by norm_num) (by norm_num)
    rw [h]
    norm_num
  refine ⟨?_, hclamp, by norm_num⟩
  simp only [gate_contractors]
  rw [List.filterMap_cons_some hp, List.filterMap_nil]
  simp only [List.take, List.map_cons, List.map_nil]
  rw [show pyRound1 (max (recA.base_score - 5)
      ((eA.score).getD 0 ⊓ (recA.base_score + 5))) = 83.4 from by rw [hclamp, hround]]

/-- Claim C3, amended: for every refiner entry whose identifier resolves in
the shortlist with base score B, the response record's score equals
`round(max(B - 5, min(S, B + 5)), 1)` - the exact clamp, rounded to one
decimal; because B is itself a one-decimal value the response score still
lies within [B - 5, B + 5]; and the gate reads only the entry's id, score
and rationale, never any echoed field (in particular not the refiner's own
stated base score). -/
theorem refined_score_clamped (s : List BaseRec) (e : RefEntry) (full : BaseRec)
    (hl : lookupById s (e.id.getD "") = some full) :
    ∃ r : ScoredContractor, processEntry s e = some r ∧
      r.score = pyRound1 (max (full.base_score - 5)
        (min (e.score.getD 0) (full.base_score + 5))) ∧
      (∀ k : ℤ, full.base_score = (k : ℝ) / 10 →
        full.base_score - 5 ≤ r.score ∧ r.score ≤ full.base_score + 5) ∧
      (∀ echo2 : RefEcho, processEntry s { e with echo := echo2 }
        = processEntry s e) := by
  refine ⟨_, processEntry_some hl, rfl, ?_, fun echo2 => processEntry_echo s e echo2⟩
  intro k hk
  have h3 : ((k - 50 : ℤ) : ℝ) / 10 = full.base_score - 5 := by
    push_cast
    rw [hk]
    ring
  have h4 : ((k + 50 : ℤ) : ℝ) / 10 = full.base_score + 5 := by
    push_cast
    rw [hk]
    ring
  have hle : full.base_score - 5 ≤ max (full.base_score - 5)
      (min (e.score.getD 0) (full.base_score + 5)) := le_max_left _ _
  have hge : max (full.base_score - 5) (min (e.score.getD 0) (full.base_score + 5))
      ≤ full.base_score + 5 := max_le (by linarith) (min_le_right _ _)
  constructor
  · have h := le_pyRound1 (a := k - 50) (x := max (full.base_score - 5)
      (min (e.score.getD 0) (full.base_score + 5))) (by rw [h3]; exact hle)
    rw [h3] at h
    exact h
  · have h := pyRound1_le (b := k + 50) (x := max (full.base_score - 5)
      (min (e.score.getD 0) (full.base_score + 5))) (by rw [h4]; exact hge)
    rw [h4] at h
    exact h

/-- Claim C3, witness. -/
theorem refined_score_clamped_witness :
    lookupById [recB] (eB.id.getD "") = some recB ∧
    (∃ r : ScoredContractor, processEntry [recB] eB = some r ∧
      r.score = pyRound1 (max (recB.base_score - 5)
        (min ((eB.score).getD 0) (recB.base_score + 5))) ∧
      (∀ k : ℤ, recB.base_score = (k : ℝ) / 10 →
        recB.base_score - 5 ≤ r.score ∧ r.score ≤ recB.base_score + 5) ∧
      (∀ echo2 : RefEcho, processEntry [recB] { eB with echo := echo2 }
        = processEntry [recB] eB)) :=
  ⟨rfl, refined_score_clamped [recB] eB recB rfl⟩

/-- Claim C10: a refiner entry whose identifier resolves in the shortlist
but which carries no score key is not dropped: the missing suggestion is
read as 0 and clamped, so (for a one-decimal base score of at least 5) the
candidate appears with score `max(B - 5, min(0, B + 5)) = B - 5`. -/
theorem missing_score_key_clamped (s : List BaseRec) (e : RefEntry)
    (full : BaseRec) (k : ℤ)
    (hs : e.score = none) (hl : lookupById s (e.id.getD "") = some full)
    (hb : full.base_score = (k : ℝ) / 10) (h5 : 5 ≤ full.base_score) :
    ∃ r : ScoredContractor, processEntry s e = some r ∧
      r.score = max (full.base_score - 5) (min 0 (full.base_score + 5)) ∧
      r.score = full.base_score - 5 ∧
      gate_contractors s [e] = [r] := by
  have hrhs : max (full.base_score - 5) (min 0 (full.base_score + 5))
      = full.base_score - 5 := by
    rw [min_eq_left (by linarith), max_eq_left (by linarith)]
  have hclamp : max (full.base_score - 5)
      (min (e.score.getD 0) (full.base_score + 5)) = full.base_score - 5 := by
    rw [hs]
    simp only [Option.getD_none]
    exact hrhs
  have hround : pyRound1 (full.base_score - 5) = full.base_score - 5 := by
    have h3 : full.base_score - 5 = ((k - 50 : ℤ) : ℝ) / 10 := by
      push_cast
      rw [hb]
      ring
    rw [h3, pyRound1_tenth]
  have hscore : pyRound1 (max (full.base_score - 5)
      (min (e.score.getD 0) (full.base_score + 5))) = full.base_score - 5 := by
    rw [hclamp, hround]
  refine ⟨_, processEntry_some hl, ?_, ?_, ?_⟩
  · exact hscore.trans hrhs.symm
  · exact hscore
  · simp only [gate_contractors]
    rw [List.filterMap_cons_some (processEntry_some hl), List.filterMap_nil]
    rfl

/-- Claim C10, witness. -/
theorem missing_score_key_clamped_witness :
    (eC.score = none ∧ lookupById [recC] (eC.id.getD "") = some recC ∧
      recC.base_score = ((800 : ℤ) : ℝ) / 10 ∧ (5 : ℝ) ≤ recC.base_score) ∧
    (∃ r : ScoredContractor, processEntry [recC] eC = some r ∧
      r.score = max (recC.base_score - 5) (min 0 (recC.base_score + 5)) ∧
      r.score = recC.base_score - 5 ∧
      gate_contractors [recC] [eC] = [r]) :=
  ⟨⟨rfl, rfl, by norm_num [recC, recA], by norm_num [recC, recA]⟩,
   missing_score_key_clamped [recC] eC recC 800 rfl rfl
     (by norm_num [recC, recA]) (by norm_num [recC, recA])⟩

/-- Claim C7: every record in the gate's response resolves by identifier to
a shortlist entry and carries that entry's stored attributes; an entry
yields a record exactly when its identifier is found in the shortlist
(unknown identifiers are dropped); the response has at most 3 records, in
the order the refiner returned them (its identifier sequence is a
subsequence of the refiner's); and echoed attribute fields are never
used. -/
theorem gate_output_integrity (s : List BaseRec) (entries : List RefEntry) :
    (gate_contractors s entries).length ≤ 3 ∧
    List.Sublist ((gate_contractors s entries).map (fun r => r.id))
      (entries.map (fun e => e.id.getD "")) ∧
    List.Forall (fun r : ScoredContractor => ∃ full : BaseRec, full ∈ s ∧
      full.id = r.id ∧ lookupById s r.id = some full ∧
      r.name = full.name ∧ r.vertical = full.vertical ∧
      r.years_in_business = full.years_in_business ∧ r.rating = full.rating ∧
      r.review_count = full.review_count ∧ r.service_area = full.service_area ∧
      r.pricing_band = full.pricing_band ∧ r.speed_weeks = full.speed_weeks ∧
      r.licenses = full.licenses ∧ r.flags = full.flags)
      (gate_contractors s entries) ∧
    (∀ e : RefEntry, (processEntry s e).isSome
      = (lookupById s (e.id.getD "")).isSome) ∧
    (∀ f : RefEntry → RefEcho,
      gate_contractors s (entries.map (fun e => { e with echo := f e }))
        = gate_contractors s entries) := by
  refine ⟨?_, ?_, ?_, processEntry_isSome s, ?_⟩
  · simp only [gate_contractors, List.length_take]
    omega
  · have h1 : List.Sublist (gate_contractors s entries)
        (entries.filterMap (processEntry s)) := List.take_sublist 3 _
    exact (h1.map (fun r => r.id)).trans (filterMap_map_id_sublist s entries)
  · rw [List.forall_iff_forall_mem]
    intro r hr
    have hr2 : r ∈ entries.filterMap (processEntry s) :=
      (List.take_sublist 3 _).subset hr
    rw [List.mem_filterMap] at hr2
    obtain ⟨e, he, hpe⟩ := hr2
    obtain ⟨full, hl, hre⟩ := processEntry_some_elim hpe
    obtain ⟨hmem, hid⟩ := lookupById_mem hl
    subst hre
    exact ⟨full, hmem, hid, hl, rfl, rfl, rfl, rfl, rfl, rfl, rfl, rfl, rfl, rfl⟩
  · intro f
    simp only [gate_contractors]
    rw [List.filterMap_map]
    rfl

/-- Claim C6: the ranker keeps exactly the candidates whose service area
equals the requested locale case-insensitively; the sorted list is a
permutation of the scored records, pairwise descending on the key
(base score, rating, review count) - so ties resolve by higher rating,
then higher review count; the sort is stable (records with any fixed key
keep their input order); and the shortlist is the top 5 of the sorted
list. -/
theorem ranker_filter_sort_truncate (pool : List Contractor) (req : ScoreRequest)
    (c : Contractor) (k : ℝ × ℝ × ℤ) :
    (c ∈ available_contractors pool req ↔
      c ∈ pool ∧ str_lower c.service_area = str_lower req.city) ∧
    base_scores pool req = (available_contractors pool req).map (mkBaseRec req) ∧
    List.Perm (sorted_base_scores pool req) (base_scores pool req) ∧
    (sorted_base_scores pool req).Pairwise
      (fun a b => tripleLe (sortKey b) (sortKey a)) ∧
    (sorted_base_scores pool req).filter (fun r => decide (sortKey r = k))
      = (base_scores pool req).filter (fun r => decide (sortKey r = k)) ∧
    top_candidates pool req = (sorted_base_scores pool req).take 5 ∧
    (top_candidates pool req).length
      = min 5 (available_contractors pool req).length :=
  ⟨mem_available_iff pool req c, rfl, sorted_base_perm pool req,
   sorted_base_sorted pool req, sorted_base_filter_key pool req k, rfl,
   by simp [top_candidates, sorted_base_scores, base_scores]⟩

end ContractorMatcher


